import Mathlib

/-
Verification development for the serif crate (src/src/lib.rs, src/src/config.rs):
a tracing-subscriber formatting layer. The definitions below are a shallow
embedding of the field visitor (FieldVisitor), the event formatter
(EventFormatter::format_event), the timestamp format constructors (TimeFormat)
and the verbosity mapping (Config::with_verbosity).

Modelling conventions:
- fmt::Result is the two-valued FmtResult (ok / err).
- The output sink (fmt::Write) is modelled by Writer. It records the sequence
  of write calls as a list of fragments; each write_style call stores the style
  it was given. Writer.out renders the exact byte stream the Rust code writes:
  write_style wraps its text in the ANSI prefix and suffix of the style if and
  only if the writer reports ANSI capability, and writes the plain text
  otherwise, exactly as WriterExt::write_style does. A possibly failing sink is
  modelled by an optional budget of remaining successful writes; a writer with
  budget none never fails.
- Styles carry the SGR parameter string that nu_ansi_term renders between the
  CSI introducer and the final m byte, for the concrete styles serif uses.
- Field values arrive already rendered to text by the host boundary: a
  record_debug call carries the Debug rendering of the value, a record_str call
  carries the plain string, and a record_error call carries both the Display
  message and the Debug rendering of the error object.
-/

namespace Serif

/-- An ANSI style, as used through nu_ansi_term. The sgr field holds the SGR
parameter list that appears between the CSI introducer and the final m byte. -/
structure Style where
  sgr : String
  deriving DecidableEq, Repr

/-- The ANSI escape text nu_ansi_term emits before styled text. -/
def Style.pre (s : Style) : String := "\x1b[" ++ s.sgr ++ "m"

/-- The ANSI escape text nu_ansi_term emits after styled text (reset). -/
def Style.suf (_ : Style) : String := "\x1b[0m"

/-- Style::default().dimmed() -/
def Style.dimmed : Style := ⟨"2"⟩

/-- Color::Red.dimmed() -/
def Style.redDimmed : Style := ⟨"2;31"⟩

/-- Color::Cyan.dimmed() -/
def Style.cyanDimmed : Style := ⟨"2;36"⟩

/-- Color::Blue.dimmed() -/
def Style.blueDimmed : Style := ⟨"2;34"⟩

/-- str::starts_with for string literals, on the character stream. -/
def strStartsWith (s p : String) : Bool := p.data.isPrefixOf s.data

/-- str::ends_with for string literals, on the character stream. -/
def strEndsWith (s p : String) : Bool := p.data.isSuffixOf s.data

/-- The result type of a formatting step: fmt::Result. -/
inductive FmtResult
  | ok
  | err
  deriving DecidableEq, Repr

/-- Result::is_err for FmtResult. -/
def FmtResult.is_err : FmtResult → Bool
  | .ok => false
  | .err => true

/-- One write call recorded by the sink: either plain text, or text written
through WriterExt::write_style with the given style. -/
inductive Frag
  | plain (s : String)
  | styled (st : Style) (s : String)
  deriving DecidableEq, Repr

/-- The output sink handed to the formatters: tracing-subscriber Writer.
ansi is what has_ansi_escapes reports. budget models how many more writes the
underlying sink will accept (none = unbounded); frags is the recorded sequence
of write calls. -/
structure Writer where
  ansi : Bool
  budget : Option Nat
  frags : List Frag
  deriving DecidableEq, Repr

/-- One write call on the sink. Fails (returning fmt::Result err) exactly when
the budget is exhausted; a failed write appends nothing. -/
def Writer.write (w : Writer) (f : Frag) : Writer × FmtResult :=
  match w.budget with
  | some 0 => (w, .err)
  | some (n + 1) => ({ w with budget := some n, frags := w.frags ++ [f] }, .ok)
  | none => ({ w with frags := w.frags ++ [f] }, .ok)

/-- WriterExt::write_style: record the styled text as one write call. Whether
the ANSI escapes are emitted is decided by Writer.out below, matching the
runtime check of enable_ansi inside write_style. -/
def Writer.write_style (w : Writer) (st : Style) (t : String) : Writer × FmtResult :=
  w.write (Frag.styled st t)

/-- The text one recorded write call produced: write_style wrote prefix, text,
suffix when ANSI was enabled and just the text otherwise; a plain write wrote
just the text. -/
def Frag.render (ansi : Bool) : Frag → String
  | .plain s => s
  | .styled st s => if ansi then st.pre ++ s ++ st.suf else s

/-- Concatenate the rendered write calls in order. -/
def renderFrags (ansi : Bool) : List Frag → String
  | [] => ""
  | f :: fs => f.render ansi ++ renderFrags ansi fs

/-- The full byte stream this writer has received. -/
def Writer.out (w : Writer) : String := renderFrags w.ansi w.frags

/-- FieldType from lib.rs: the kind of the previously rendered field. -/
inductive FieldType
  | none
  | message
  | other
  deriving DecidableEq, Repr

/-- FieldVisitor from lib.rs: the per-pass state of field rendering. -/
structure FieldVisitor where
  writer : Writer
  result : FmtResult
  last : FieldType
  deriving DecidableEq, Repr

/-- FieldVisitor::new. -/
def FieldVisitor.new (writer : Writer) : FieldVisitor :=
  { writer := writer, result := .ok, last := .none }

/-- FieldVisitor::pad_for_message. -/
def FieldVisitor.pad_for_message (v : FieldVisitor) : String :=
  match v.last with
  | .none => ""
  | .message | .other => " "

/-- FieldVisitor::pad_for_other. -/
def FieldVisitor.pad_for_other (v : FieldVisitor) : String :=
  match v.last with
  | .message => " "
  | .none | .other => ""

/-- FieldVisitor::record_debug. The value argument is the Debug rendering of
the Rust value. -/
def FieldVisitor.record_debug (v : FieldVisitor) (name : String) (value : String) :
    FieldVisitor :=
  if v.result.is_err then v
  else if strStartsWith name "log." then v
  else if name = "message" then
    let pad := v.pad_for_message
    let v := { v with last := FieldType.message }
    let (w, r) := v.writer.write (Frag.plain (pad ++ value))
    { v with writer := w, result := r }
  else
    let pad := v.pad_for_other
    let v := { v with last := FieldType.other }
    let (w, r) := v.writer.write_style Style.dimmed (pad ++ "[" ++ name ++ "=" ++ value ++ "]")
    { v with writer := w, result := r }

/-- The escaping std Debug formatting applies to one character of a str. -/
def escapeDebugChar (c : Char) : String :=
  if c = '"' then "\\\""
  else if c = '\\' then "\\\\"
  else if c = '\n' then "\\n"
  else if c = '\t' then "\\t"
  else if c = '\r' then "\\r"
  else String.singleton c

/-- Concatenation of a list of strings. -/
def concatStrs : List String → String
  | [] => ""
  | s :: rest => s ++ concatStrs rest

/-- The Debug rendering of a Rust str: quoted and escaped. -/
def strDebug (s : String) : String :=
  "\"" ++ concatStrs (s.data.map escapeDebugChar) ++ "\""

/-- FieldVisitor::record_str. A message field is forwarded to record_debug as a
format_args bundle whose Debug rendering is the display text itself; any other
field is forwarded as the str value, whose Debug rendering is quoted. -/
def FieldVisitor.record_str (v : FieldVisitor) (name : String) (value : String) :
    FieldVisitor :=
  if name = "message" then v.record_debug name value
  else v.record_debug name (strDebug value)

/-- An error-typed field value, carrying its Display message and its Debug
rendering. -/
structure ErrValue where
  display : String
  debugRepr : String
  deriving DecidableEq, Repr

/-- FieldVisitor::record_error. Uses the Display message of the error. -/
def FieldVisitor.record_error (v : FieldVisitor) (name : String) (e : ErrValue) :
    FieldVisitor :=
  if v.result.is_err then v
  else if strStartsWith name "log." then v
  else
    let pad := v.pad_for_other
    let v := { v with last := FieldType.other }
    let (w, r) :=
      v.writer.write_style Style.redDimmed (pad ++ "[" ++ name ++ "=" ++ e.display ++ "]")
    { v with writer := w, result := r }

/-- VisitOutput::finish for FieldVisitor. -/
def FieldVisitor.finish (v : FieldVisitor) : FmtResult := v.result

/-- One field-visit call as dispatched by the host at runtime, depending on the
type of the field value. -/
inductive VisitCall
  | vdebug (name : String) (value : String)
  | vstr (name : String) (value : String)
  | verror (name : String) (value : ErrValue)
  deriving DecidableEq, Repr

/-- Dispatch of one visit call to the matching record method. -/
def FieldVisitor.visit (v : FieldVisitor) : VisitCall → FieldVisitor
  | .vdebug n d => v.record_debug n d
  | .vstr n s => v.record_str n s
  | .verror n e => v.record_error n e

/-- FieldFormatter as a FormatFields implementation: make a fresh visitor over
the writer, visit every field of the event in order, and finish the pass. -/
def format_fields (w : Writer) (calls : List VisitCall) : Writer × FmtResult :=
  let v := calls.foldl FieldVisitor.visit (FieldVisitor.new w)
  (v.writer, v.finish)

/-- InnerTimeFormat from lib.rs. -/
inductive InnerTimeFormat
  | none
  | local (format : Option String)
  | utc (format : Option String)
  deriving DecidableEq, Repr

/-- TimeFormat from lib.rs. -/
structure TimeFormat where
  inner : InnerTimeFormat
  deriving DecidableEq, Repr

/-- TimeFormat::none. -/
def TimeFormat.noTimestamp : TimeFormat := ⟨.none⟩

/-- TimeFormat::local. -/
def TimeFormat.localDefault : TimeFormat := ⟨.local Option.none⟩

/-- TimeFormat::utc. -/
def TimeFormat.utcDefault : TimeFormat := ⟨.utc Option.none⟩

/-- TimeFormat::is_none. -/
def TimeFormat.is_none (tf : TimeFormat) : Bool :=
  match tf.inner with
  | .none => true
  | _ => false

/-- TimeFormat::local_custom. The construction validates the format string
against the strftime implementation only when the crate is compiled with debug
assertions; jiffFormatOk stands for the external jiff strtime formatter
accepting the format string. A panic at construction is modelled as
Option.none. -/
def TimeFormat.local_custom (debugAssertions : Bool) (jiffFormatOk : String → Bool)
    (format : String) : Option TimeFormat :=
  if debugAssertions && !(jiffFormatOk format) then Option.none
  else some ⟨.local (some format)⟩

/-- TimeFormat::utc_custom, structured exactly like local_custom. -/
def TimeFormat.utc_custom (debugAssertions : Bool) (jiffFormatOk : String → Bool)
    (format : String) : Option TimeFormat :=
  if debugAssertions && !(jiffFormatOk format) then Option.none
  else some ⟨.utc (some format)⟩

/-- Event severity levels of tracing-core. -/
inductive Level
  | trace
  | debug
  | info
  | warn
  | error
  deriving DecidableEq, Repr

/-- The level text right-aligned in a five column field, as the
format_event write of the level renders it. -/
def Level.padded : Level → String
  | .trace => "TRACE"
  | .debug => "DEBUG"
  | .info => " INFO"
  | .warn => " WARN"
  | .error => "ERROR"

/-- The per-level color chosen in format_event: trace purple, debug blue,
info green, warn yellow, error red. -/
def Level.style : Level → Style
  | .trace => ⟨"35"⟩
  | .debug => ⟨"34"⟩
  | .info => ⟨"32"⟩
  | .warn => ⟨"33"⟩
  | .error => ⟨"31"⟩

/-- One span of the event scope, root to leaf: its name and the
FormattedFields extension text when present. -/
structure SpanData where
  name : String
  fields : Option String
  deriving DecidableEq, Repr

/-- The event data format_event consumes: level, target and the field set in
declaration order, each field tagged with the record method the host will
dispatch it to. -/
structure EventData where
  level : Level
  target : String
  fields : List VisitCall
  deriving DecidableEq, Repr

/-- EventFormatter from lib.rs. -/
structure EventFormatter where
  time_format : TimeFormat
  display_target : Bool
  display_scope : Bool
  deriving DecidableEq, Repr

/-- EventFormatter::new. -/
def EventFormatter.new : EventFormatter :=
  { time_format := TimeFormat.localDefault, display_target := true, display_scope := true }

/-- Sequencing of fallible writes: the question-mark operator of format_event.
An error short-circuits the rest of the line. -/
def fthen (r : Writer × FmtResult) (k : Writer → Writer × FmtResult) : Writer × FmtResult :=
  match r with
  | (w, .ok) => k w
  | (w, .err) => (w, .err)

/-- The loop body of the scope display in format_event: for each span from
root to leaf, write the span name in dimmed cyan, then, when the
FormattedFields extension is present and not empty, write the field text
followed by a colon. -/
def renderSpans (w : Writer) : List SpanData → Writer × FmtResult
  | [] => (w, .ok)
  | s :: rest =>
    fthen (w.write_style Style.cyanDimmed s.name) fun w =>
      fthen
        (match s.fields with
         | some f => if f.isEmpty then (w, .ok) else w.write (Frag.plain (f ++ ":"))
         | Option.none => (w, .ok)) fun w =>
        renderSpans w rest

/-- The scope display of format_event: render every span, then a single
trailing space when at least one span was rendered. -/
def renderScope (w : Writer) (scope : List SpanData) : Writer × FmtResult :=
  fthen (renderSpans w scope) fun w =>
    if scope.isEmpty then (w, .ok) else w.write (Frag.plain " ")

/-- EventFormatter::format_event. tsText stands for the text the external
timestamp renderer (TimeFormat::render_now) produces for the current instant;
it is written, followed by a space, in dimmed style, when the time format is
not suppressed. Then the level, the scope chain, the target and the event
fields are written, and the line is terminated by a newline. -/
def EventFormatter.format_event (self : EventFormatter) (tsText : String)
    (w : Writer) (event : EventData) (scope : List SpanData) : Writer × FmtResult :=
  fthen
    (if self.time_format.is_none then (w, .ok)
     else w.write_style Style.dimmed (tsText ++ " ")) fun w =>
  fthen (w.write_style event.level.style (event.level.padded ++ " ")) fun w =>
  fthen (if self.display_scope then renderScope w scope else (w, .ok)) fun w =>
  fthen
    (if self.display_target then
      fthen (w.write_style Style.blueDimmed event.target) fun w =>
        w.write (Frag.plain ": ")
     else (w, .ok)) fun w =>
  fthen (format_fields w event.fields) fun w =>
  w.write (Frag.plain "\n")

/-- LevelFilter of tracing-subscriber, standing in for the filter Directive a
Config stores as its default. -/
inductive LevelFilter
  | off
  | error
  | warn
  | info
  | debug
  | trace
  deriving DecidableEq, Repr

/-- Output from config.rs. -/
inductive Output
  | stdout
  | stderr
  deriving DecidableEq, Repr

/-- ColorMode from config.rs. -/
inductive ColorMode
  | auto
  | always
  | never
  deriving DecidableEq, Repr

/-- Config from config.rs. The default directive is modelled at the
LevelFilter granularity, which is all the builder methods below produce. -/
structure Config where
  event_formatter : EventFormatter
  output : Output
  color : ColorMode
  default_directive : LevelFilter
  deriving DecidableEq, Repr

/-- Config::new. -/
def Config.new : Config :=
  { event_formatter := EventFormatter.new, output := .stdout, color := .auto,
    default_directive := .info }

/-- Config::with_default. -/
def Config.with_default (c : Config) (default : LevelFilter) : Config :=
  { c with default_directive := default }

/-- i32::clamp as used in with_verbosity. -/
def clampInt (v lo hi : Int) : Int :=
  if v < lo then lo else if v > hi then hi else v

/-- Config::with_verbosity: clamp the verbosity to the range -3 to 2 and match
it to a level filter. The unreachable branch of the Rust match is modelled as
Option.none. -/
def Config.with_verbosity (c : Config) (verbosity : Int) : Option Config :=
  let x := clampInt verbosity (-3) 2
  let level :=
    if x = -3 then some LevelFilter.off
    else if x = -2 then some LevelFilter.error
    else if x = -1 then some LevelFilter.warn
    else if x = 0 then some LevelFilter.info
    else if x = 1 then some LevelFilter.debug
    else if x = 2 then some LevelFilter.trace
    else Option.none
  level.map fun level => c.with_default level

/-- The same writer with the ANSI capability flag replaced. Used to compare a
styled and an unstyled run over the same sink. -/
def Writer.withAnsi (w : Writer) (b : Bool) : Writer := { w with ansi := b }

/-- The same visitor with the ANSI capability flag of its writer replaced. -/
def FieldVisitor.withAnsi (v : FieldVisitor) (b : Bool) : FieldVisitor :=
  { v with writer := v.writer.withAnsi b }

/-- A string free of the ANSI escape byte. -/
def escFree (s : String) : Bool := !(s.data.contains '\x1b')

/-- A string free of the byte m, which terminates an SGR escape sequence. -/
def noM (s : String) : Bool := !(s.data.contains 'm')

/-- The SGR parameter strings of the styles serif uses contain neither the
escape byte nor the terminating m byte. -/
def goodStyle (st : Style) : Bool := escFree st.sgr && noM st.sgr

/-- A recorded write call whose text is escape free and whose style, if any,
is well formed. -/
def Frag.good : Frag → Bool
  | .plain s => escFree s
  | .styled st s => escFree s && goodStyle st

/-- Every write call recorded so far is good. -/
def GoodW (w : Writer) : Prop := ∀ f ∈ w.frags, f.good = true

/-- Remove ANSI SGR escape sequences from a character stream: outside an
escape sequence, the escape byte switches to skipping mode; in skipping mode,
everything up to and including the next m byte is dropped. -/
def stripAux : Bool → List Char → List Char
  | _, [] => []
  | false, c :: cs => if c = '\x1b' then stripAux true cs else c :: stripAux false cs
  | true, c :: cs => if c = 'm' then stripAux false cs else stripAux true cs

/-- Remove ANSI SGR escape sequences from a string. -/
def stripEsc (s : String) : String := ⟨stripAux false s.data⟩

/-- All the text a visit call carries is escape free. -/
def VisitCall.escInputs : VisitCall → Bool
  | .vdebug n d => escFree n && escFree d
  | .vstr n s => escFree n && escFree s
  | .verror n e => escFree n && escFree e.display

/-- The name and field text of a span are escape free. -/
def SpanData.escInputs (s : SpanData) : Bool :=
  escFree s.name &&
    (match s.fields with
     | some f => escFree f
     | Option.none => true)

/-- The target and all field values of an event are escape free. -/
def EventData.escInputs (e : EventData) : Bool :=
  escFree e.target && e.fields.all VisitCall.escInputs

/-! ## Theorems -/

/-- C1: for every sequence of visited fields, the leading pad before a field
named message is the empty string when no field has been rendered yet (last is
None) and a single space otherwise, and the leading pad before a non-message
field is a single space when the previously rendered field was the message and
the empty string otherwise. -/
theorem C1_padding (v : FieldVisitor) :
    v.pad_for_message = (if v.last = FieldType.none then "" else " ") ∧
    v.pad_for_other = (if v.last = FieldType.message then " " else "") := by
  rcases v with ⟨w, r, last⟩
  cases last <;>
    simp [FieldVisitor.pad_for_message, FieldVisitor.pad_for_other]

/-- C2 counterexample: an error-typed value recorded for a field named
message is rendered wrapped in square brackets, refuting the claim that a
field named message is never bracket wrapped. -/
theorem C2_counterexample :
    ((FieldVisitor.new ⟨false, Option.none, []⟩).record_error "message"
        ⟨"boom", "BoomDebug"⟩).writer.out = "[message=boom]" ∧
    (strStartsWith ((FieldVisitor.new ⟨false, Option.none, []⟩).record_error "message"
        ⟨"boom", "BoomDebug"⟩).writer.out "[" = true) ∧
    (strEndsWith ((FieldVisitor.new ⟨false, Option.none, []⟩).record_error "message"
        ⟨"boom", "BoomDebug"⟩).writer.out "]" = true) := by
  refine ⟨by decide, by decide, by decide⟩

/-- C2 amended: a field named message visited through record_debug or
record_str is rendered as pad followed by the value, with no brackets added;
an error-typed value for a field named message goes through record_error,
which treats it like a non-message field and wraps it in brackets. -/
theorem C2_message_brackets (v : FieldVisitor) (value : String) (e : ErrValue)
    (h1 : v.result = FmtResult.ok) (h2 : v.writer.budget = Option.none) :
    (v.record_debug "message" value).writer.frags
        = v.writer.frags ++ [Frag.plain (v.pad_for_message ++ value)] ∧
    (v.record_str "message" value).writer.frags
        = v.writer.frags ++ [Frag.plain (v.pad_for_message ++ value)] ∧
    (v.record_error "message" e).writer.frags
        = v.writer.frags
          ++ [Frag.styled Style.redDimmed
                (v.pad_for_other ++ "[" ++ "message" ++ "=" ++ e.display ++ "]")] := by
  have hlp : strStartsWith "message" "log." = false := by decide
  have hd : (v.record_debug "message" value).writer.frags
      = v.writer.frags ++ [Frag.plain (v.pad_for_message ++ value)] := by
    simp [FieldVisitor.record_debug, h1, FmtResult.is_err, Writer.write, h2, hlp]
  refine ⟨hd, ?_, ?_⟩
  · simp [FieldVisitor.record_str, hd]
  · simp [FieldVisitor.record_error, h1, FmtResult.is_err, Writer.write_style,
      Writer.write, h2, hlp]

/-- C2 witness for the amended theorem. -/
theorem C2_witness :
    ((FieldVisitor.new ⟨false, Option.none, []⟩).result = FmtResult.ok ∧
      (FieldVisitor.new ⟨false, Option.none, []⟩).writer.budget = Option.none) ∧
    ((FieldVisitor.new ⟨false, Option.none, []⟩).record_debug "message" "hi").writer.frags
        = (FieldVisitor.new ⟨false, Option.none, []⟩).writer.frags
          ++ [Frag.plain ((FieldVisitor.new ⟨false, Option.none, []⟩).pad_for_message ++ "hi")] ∧
    ((FieldVisitor.new ⟨false, Option.none, []⟩).record_str "message" "hi").writer.frags
        = (FieldVisitor.new ⟨false, Option.none, []⟩).writer.frags
          ++ [Frag.plain ((FieldVisitor.new ⟨false, Option.none, []⟩).pad_for_message ++ "hi")] ∧
    ((FieldVisitor.new ⟨false, Option.none, []⟩).record_error "message"
        ⟨"boom", "BoomDebug"⟩).writer.frags
        = (FieldVisitor.new ⟨false, Option.none, []⟩).writer.frags
          ++ [Frag.styled Style.redDimmed
                ((FieldVisitor.new ⟨false, Option.none, []⟩).pad_for_other
                  ++ "[" ++ "message" ++ "=" ++ "boom" ++ "]")] :=
  ⟨⟨rfl, rfl⟩, C2_message_brackets (FieldVisitor.new ⟨false, Option.none, []⟩) "hi"
      ⟨"boom", "BoomDebug"⟩ rfl rfl⟩

/-- C6: once the accumulated result of a field-render pass is a write failure,
every subsequent field-visit call is a no-op that returns the visitor
unchanged, and finishing the pass yields the accumulated result. -/
theorem C6_short_circuit :
    (∀ (v : FieldVisitor) (c : VisitCall),
        v.result = FmtResult.err → v.visit c = v) ∧
    (∀ v : FieldVisitor, v.finish = v.result) := by
  constructor
  · intro v c h
    cases c with
    | vdebug n d =>
        simp [FieldVisitor.visit, FieldVisitor.record_debug, h, FmtResult.is_err]
    | vstr n s =>
        simp [FieldVisitor.visit, FieldVisitor.record_str, FieldVisitor.record_debug, h,
          FmtResult.is_err]
    | verror n e =>
        simp [FieldVisitor.visit, FieldVisitor.record_error, h, FmtResult.is_err]
  · intro v
    rfl

/-- C6 witness: a pass whose first write fails (sink budget zero) leaves an
err result, and a later visit is a no-op while finish surfaces the failure. -/
theorem C6_witness :
    ((FieldVisitor.new ⟨false, some 0, []⟩).record_debug "message" "hi").result
        = FmtResult.err ∧
    (((FieldVisitor.new ⟨false, some 0, []⟩).record_debug "message" "hi").visit
        (VisitCall.vdebug "x" "1")
      = (FieldVisitor.new ⟨false, some 0, []⟩).record_debug "message" "hi") ∧
    ((FieldVisitor.new ⟨false, some 0, []⟩).record_debug "message" "hi").finish
      = ((FieldVisitor.new ⟨false, some 0, []⟩).record_debug "message" "hi").result :=
  ⟨by decide, C6_short_circuit.1 _ _ (by decide), C6_short_circuit.2 _⟩

/-- C7: a visited field whose name begins with the prefix log. produces no
output and leaves the visitor, including its spacing state, unchanged, through
each of the three record methods. -/
theorem C7_log_fields (v : FieldVisitor) (name d s : String) (e : ErrValue)
    (h : strStartsWith name "log." = true) :
    v.record_debug name d = v ∧ v.record_str name s = v ∧ v.record_error name e = v := by
  have hne : ¬ name = "message" := by
    intro hm
    rw [hm] at h
    exact absurd h (by decide)
  have hd : ∀ t : String, v.record_debug name t = v := by
    intro t
    unfold FieldVisitor.record_debug
    by_cases hr : v.result.is_err = true <;> simp [hr, h]
  refine ⟨hd d, ?_, ?_⟩
  · simp [FieldVisitor.record_str, hne, hd]
  · unfold FieldVisitor.record_error
    by_cases hr : v.result.is_err = true <;> simp [hr, h]

/-- C7 witness. -/
theorem C7_witness :
    (strStartsWith "log.target" "log." = true) ∧
    ((FieldVisitor.new ⟨false, Option.none, []⟩).record_debug "log.target" "t"
        = FieldVisitor.new ⟨false, Option.none, []⟩ ∧
      (FieldVisitor.new ⟨false, Option.none, []⟩).record_str "log.target" "s"
        = FieldVisitor.new ⟨false, Option.none, []⟩ ∧
      (FieldVisitor.new ⟨false, Option.none, []⟩).record_error "log.target" ⟨"d", "g"⟩
        = FieldVisitor.new ⟨false, Option.none, []⟩) :=
  ⟨by decide, C7_log_fields (FieldVisitor.new ⟨false, Option.none, []⟩)
      "log.target" "t" "s" ⟨"d", "g"⟩ (by decide)⟩

/-- C8: an error-typed field value not suppressed by the log. prefix renders
as the pad followed by the bracketed name equals Display message, written in
dimmed red, and the spacing state becomes Other; the Debug rendering of the
error is not used. -/
theorem C8_record_error (v : FieldVisitor) (name : String) (e : ErrValue)
    (h1 : v.result = FmtResult.ok) (h2 : v.writer.budget = Option.none)
    (h3 : strStartsWith name "log." = false) :
    (v.record_error name e).writer.frags
        = v.writer.frags
          ++ [Frag.styled Style.redDimmed
                (v.pad_for_other ++ "[" ++ name ++ "=" ++ e.display ++ "]")] ∧
    (v.record_error name e).last = FieldType.other ∧
    (v.record_error name e).result = FmtResult.ok := by
  simp [FieldVisitor.record_error, h1, FmtResult.is_err, h3, Writer.write_style,
    Writer.write, h2]

/-- C8 witness: a concrete error value whose Display and Debug renderings
differ; the rendered fragment carries the Display message. -/
theorem C8_witness :
    ((FieldVisitor.new ⟨false, Option.none, []⟩).result = FmtResult.ok ∧
      (FieldVisitor.new ⟨false, Option.none, []⟩).writer.budget = Option.none ∧
      (strStartsWith "cause" "log." = false)) ∧
    (((FieldVisitor.new ⟨false, Option.none, []⟩).record_error "cause"
          ⟨"io oops", "Custom"⟩).writer.frags
        = (FieldVisitor.new ⟨false, Option.none, []⟩).writer.frags
          ++ [Frag.styled Style.redDimmed
                ((FieldVisitor.new ⟨false, Option.none, []⟩).pad_for_other
                  ++ "[" ++ "cause" ++ "=" ++ "io oops" ++ "]")] ∧
      ((FieldVisitor.new ⟨false, Option.none, []⟩).record_error "cause"
          ⟨"io oops", "Custom"⟩).last = FieldType.other ∧
      ((FieldVisitor.new ⟨false, Option.none, []⟩).record_error "cause"
          ⟨"io oops", "Custom"⟩).result = FmtResult.ok) :=
  ⟨⟨rfl, rfl, by decide⟩, C8_record_error (FieldVisitor.new ⟨false, Option.none, []⟩)
      "cause" ⟨"io oops", "Custom"⟩ rfl rfl (by decide)⟩

/-- C3 counterexample: with debug assertions off (a release build), a custom
pattern rejected by the strftime formatter still constructs successfully, so
construction does not fail before a render attempt. -/
theorem C3_counterexample :
    (TimeFormat.local_custom false (fun _ => false) "%!").isSome = true ∧
    (TimeFormat.utc_custom false (fun _ => false) "%!").isSome = true := by
  exact ⟨rfl, rfl⟩

/-- C3 amended: a custom pattern with an unknown directive makes construction
panic only when debug assertions are enabled; with debug assertions disabled
the constructors succeed and the invalid pattern is kept, deferring the
failure to render time. -/
theorem C3_custom_validation (jiffFormatOk : String → Bool) (format : String)
    (h : jiffFormatOk format = false) :
    TimeFormat.local_custom true jiffFormatOk format = Option.none ∧
    TimeFormat.utc_custom true jiffFormatOk format = Option.none ∧
    (TimeFormat.local_custom false jiffFormatOk format).isSome = true ∧
    (TimeFormat.utc_custom false jiffFormatOk format).isSome = true := by
  simp [TimeFormat.local_custom, TimeFormat.utc_custom, h]

/-- C3 witness for the amended theorem. -/
theorem C3_witness :
    ((fun _ : String => false) "%!" = false) ∧
    (TimeFormat.local_custom true (fun _ => false) "%!" = Option.none ∧
      TimeFormat.utc_custom true (fun _ => false) "%!" = Option.none ∧
      (TimeFormat.local_custom false (fun _ => false) "%!").isSome = true ∧
      (TimeFormat.utc_custom false (fun _ => false) "%!").isSome = true) :=
  ⟨rfl, C3_custom_validation (fun _ => false) "%!" rfl⟩

/-- Closed form of Config::with_verbosity, shared by the claims about it. -/
theorem with_verbosity_closed (c : Config) (v : Int) :
    c.with_verbosity v = some (c.with_default
      (if v ≤ -3 then LevelFilter.off
       else if v = -2 then LevelFilter.error
       else if v = -1 then LevelFilter.warn
       else if v = 0 then LevelFilter.info
       else if v = 1 then LevelFilter.debug
       else LevelFilter.trace)) := by
  rcases (show (v ≤ -3 ∧ clampInt v (-3) 2 = -3) ∨ (v = -2 ∧ clampInt v (-3) 2 = -2)
      ∨ (v = -1 ∧ clampInt v (-3) 2 = -1) ∨ (v = 0 ∧ clampInt v (-3) 2 = 0)
      ∨ (v = 1 ∧ clampInt v (-3) 2 = 1) ∨ (2 ≤ v ∧ clampInt v (-3) 2 = 2) by
    simp only [clampInt]; split_ifs <;> omega) with
    ⟨h, hc⟩ | ⟨h, hc⟩ | ⟨h, hc⟩ | ⟨h, hc⟩ | ⟨h, hc⟩ | ⟨h, hc⟩
  · simp only [Config.with_verbosity]
    rw [hc, if_pos h]
    norm_num
  · subst h
    simp only [Config.with_verbosity]
    rw [hc]
    norm_num
  · subst h
    simp only [Config.with_verbosity]
    rw [hc]
    norm_num
  · subst h
    simp only [Config.with_verbosity]
    rw [hc]
    norm_num
  · subst h
    simp only [Config.with_verbosity]
    rw [hc]
    norm_num
  · simp only [Config.with_verbosity]
    rw [hc, if_neg (by omega : ¬ v ≤ -3), if_neg (by omega : ¬ v = -2),
      if_neg (by omega : ¬ v = -1), if_neg (by omega : ¬ v = 0),
      if_neg (by omega : ¬ v = 1)]
    norm_num

/-- C9: with_verbosity clamps the verbosity to the range -3 to 2 and maps
-3 to off, -2 to error, -1 to warn, 0 to info, 1 to debug and 2 to trace, so
any verbosity at most -3 yields off and any verbosity at least 2 yields
trace. -/
theorem C9_verbosity (c : Config) (v : Int) :
    c.with_verbosity v = some (c.with_default
      (if v ≤ -3 then LevelFilter.off
       else if v = -2 then LevelFilter.error
       else if v = -1 then LevelFilter.warn
       else if v = 0 then LevelFilter.info
       else if v = 1 then LevelFilter.debug
       else LevelFilter.trace)) :=
  with_verbosity_closed c v

/-- C10: for every verbosity, the unreachable branch of the match inside
with_verbosity is never taken: the clamped value always falls in one of the
six matched cases, so the function always produces a configuration. -/
theorem C10_no_unreachable (c : Config) (v : Int) :
    (c.with_verbosity v).isSome = true := by
  rw [with_verbosity_closed c v]
  rfl

/-- C4 counterexample: for an info event with target app, a scope of one span
named setup carrying no fields, and the message starting, the rendered line
has no colon after the span name: the span loop writes the colon only together
with a non-empty field text. This refutes the claimed line shape. -/
theorem C4_counterexample :
    (EventFormatter.new.format_event "[TS]" ⟨false, Option.none, []⟩
        ⟨Level.info, "app", [VisitCall.vdebug "message" "starting"]⟩
        [⟨"setup", some ""⟩]).1.out = "[TS]  INFO setup app: starting\n" ∧
    (EventFormatter.new.format_event "[TS]" ⟨false, Option.none, []⟩
        ⟨Level.info, "app", [VisitCall.vdebug "message" "starting"]⟩
        [⟨"setup", some ""⟩]).1.out ≠ "[TS]  INFO setup: app: starting\n" := by
  exact ⟨by decide, by decide⟩

/-- A write on a sink that accepts every write appends its fragment. -/
theorem write_none (w : Writer) (h : w.budget = Option.none) (f : Frag) :
    w.write f = ({ w with frags := w.frags ++ [f] }, FmtResult.ok) := by
  simp [Writer.write, h]

/-- A styled write on a sink that accepts every write appends its fragment. -/
theorem write_style_none (w : Writer) (h : w.budget = Option.none) (st : Style)
    (t : String) :
    w.write_style st t = ({ w with frags := w.frags ++ [Frag.styled st t] }, FmtResult.ok) := by
  simp [Writer.write_style, write_none w h]

/-- Sequencing after a successful step continues. -/
theorem fthen_ok (w : Writer) (k : Writer → Writer × FmtResult) :
    fthen (w, FmtResult.ok) k = k w := rfl

/-- Sequencing after a failed step short-circuits. -/
theorem fthen_err (w : Writer) (k : Writer → Writer × FmtResult) :
    fthen (w, FmtResult.err) k = (w, FmtResult.err) := rfl

/-- Closed form of the span loop of format_event on a sink that accepts every
write. -/
theorem renderSpans_eq (scope : List SpanData) : ∀ w : Writer, w.budget = Option.none →
    renderSpans w scope
      = ({ w with frags := w.frags
            ++ scope.flatMap fun s =>
                 Frag.styled Style.cyanDimmed s.name ::
                   (match s.fields with
                    | some f => if f.isEmpty then [] else [Frag.plain (f ++ ":")]
                    | Option.none => []) }, FmtResult.ok) := by
  induction scope with
  | nil =>
    intro w h
    simp [renderSpans]
  | cons s rest ih =>
    intro w h
    rcases s with ⟨n, f⟩
    cases f with
    | none =>
      simp only [renderSpans]
      rw [write_style_none w h, fthen_ok, fthen_ok, ih _ (by simp [h])]
      simp [List.flatMap_cons, List.append_assoc]
    | some f =>
      by_cases hf : f.isEmpty = true
      · simp only [renderSpans]
        rw [write_style_none w h, fthen_ok, if_pos hf, fthen_ok, ih _ (by simp [h])]
        simp [List.flatMap_cons, hf, List.append_assoc]
      · simp only [renderSpans]
        rw [write_style_none w h, fthen_ok, if_neg hf, write_none _ (by simp [h]),
          fthen_ok, ih _ (by simp [h])]
        simp [List.flatMap_cons, hf, List.append_assoc]

/-- C4 amended: the scope chain renders each span from root to leaf as its
name in dimmed cyan, immediately followed, only when the pre-formatted field
text of that span is present and non-empty, by that field text and a colon;
consecutive spans have no separator, and a single trailing space follows when
at least one span was rendered. A span with no fields contributes just its
name, so the example line reads setup followed by a space, with no colon. -/
theorem C4_scope_render (w : Writer) (scope : List SpanData)
    (h : w.budget = Option.none) :
    renderScope w scope
      = ({ w with frags := w.frags
            ++ (scope.flatMap fun s =>
                 Frag.styled Style.cyanDimmed s.name ::
                   (match s.fields with
                    | some f => if f.isEmpty then [] else [Frag.plain (f ++ ":")]
                    | Option.none => []))
            ++ (if scope.isEmpty then [] else [Frag.plain " "]) }, FmtResult.ok) := by
  unfold renderScope
  rw [renderSpans_eq scope w h, fthen_ok]
  cases scope with
  | nil => simp
  | cons s rest =>
    rw [if_neg (by simp : ¬ (s :: rest).isEmpty = true),
      write_none _ (by simp [h])]
    simp [List.append_assoc]

/-- C4 witness for the amended theorem, at the scope of the round-trip
example: one span named setup with empty field text. -/
theorem C4_witness :
    ((⟨false, Option.none, []⟩ : Writer).budget = Option.none) ∧
    renderScope ⟨false, Option.none, []⟩ [⟨"setup", some ""⟩]
      = ({ (⟨false, Option.none, []⟩ : Writer) with frags := []
            ++ ([⟨"setup", some ""⟩] : List SpanData).flatMap (fun s =>
                 Frag.styled Style.cyanDimmed s.name ::
                   (match s.fields with
                    | some f => if f.isEmpty then [] else [Frag.plain (f ++ ":")]
                    | Option.none => []))
            ++ (if ([⟨"setup", some ""⟩] : List SpanData).isEmpty then []
                else [Frag.plain " "]) }, FmtResult.ok) :=
  ⟨rfl, C4_scope_render ⟨false, Option.none, []⟩ [⟨"setup", some ""⟩] rfl⟩

/-! ### String and escape-stripping helpers for the ANSI claims -/

/-- Escape freedom distributes over append. -/
theorem escFree_append (a b : String) : escFree (a ++ b) = (escFree a && escFree b) := by
  simp [escFree, String.data_append]

/-- Membership characterisation of escape freedom. -/
theorem escFree_iff (s : String) : escFree s = true ↔ ∀ c ∈ s.data, c ≠ '\x1b' := by
  simp only [escFree, Bool.not_eq_true']
  rw [show (s.data.contains '\x1b' = false) ↔ ¬ ('\x1b' ∈ s.data) by simp]
  constructor
  · intro h c hc he
    exact h (he ▸ hc)
  · intro h hm
    exact h _ hm rfl

/-- Membership characterisation of freedom from the m byte. -/
theorem noM_iff (s : String) : noM s = true ↔ ∀ c ∈ s.data, c ≠ 'm' := by
  simp only [noM, Bool.not_eq_true']
  rw [show (s.data.contains 'm' = false) ↔ ¬ ('m' ∈ s.data) by simp]
  constructor
  · intro h c hc he
    exact h (he ▸ hc)
  · intro h hm
    exact h _ hm rfl

/-- Stripping passes over escape-free characters unchanged. -/
theorem stripAux_plain (cs : List Char) (h : ∀ c ∈ cs, c ≠ '\x1b') (rest : List Char) :
    stripAux false (cs ++ rest) = cs ++ stripAux false rest := by
  induction cs with
  | nil => rfl
  | cons c cs ih =>
    have hc : ¬ c = '\x1b' := h c (by simp)
    simp only [List.cons_append, stripAux, if_neg hc]
    exact congrArg (c :: ·) (ih fun d hd => h d (by simp [hd]))

/-- Inside an escape sequence, characters before the terminating m byte are
dropped. -/
theorem stripAux_skip (cs : List Char) (h : ∀ c ∈ cs, c ≠ 'm') (rest : List Char) :
    stripAux true (cs ++ rest) = stripAux true rest := by
  induction cs with
  | nil => rfl
  | cons c cs ih =>
    have hc : ¬ c = 'm' := h c (by simp)
    simp only [List.cons_append, stripAux, if_neg hc]
    exact ih fun d hd => h d (by simp [hd])

/-- The escape byte starts skipping mode. -/
theorem stripAux_esc (cs : List Char) : stripAux false ('\x1b' :: cs) = stripAux true cs := by
  simp [stripAux]

/-- A non-terminator character inside an escape sequence is dropped. -/
theorem stripAux_in (c : Char) (hc : ¬ c = 'm') (cs : List Char) :
    stripAux true (c :: cs) = stripAux true cs := by
  simp only [stripAux, if_neg hc]

/-- The m byte ends skipping mode. -/
theorem stripAux_m (cs : List Char) : stripAux true ('m' :: cs) = stripAux false cs := by
  simp [stripAux]

/-- Stripping removes the escape wrapper a good style adds around escape-free
text. -/
theorem strip_styled (st : Style) (hst : goodStyle st = true) (t : String)
    (ht : escFree t = true) (rest : List Char) :
    stripAux false ((st.pre ++ t ++ st.suf).data ++ rest)
      = t.data ++ stripAux false rest := by
  have hsg : escFree st.sgr = true ∧ noM st.sgr = true := by
    simpa [goodStyle, Bool.and_eq_true] using hst
  have hdata : (st.pre ++ t ++ st.suf).data ++ rest
      = '\x1b' :: '[' :: (st.sgr.data
          ++ ('m' :: (t.data ++ ('\x1b' :: '[' :: '0' :: 'm' :: rest)))) := by
    simp only [Style.pre, Style.suf, String.data_append,
      show ("\x1b[" : String).data = ['\x1b', '['] from rfl,
      show ("m" : String).data = ['m'] from rfl,
      show ("\x1b[0m" : String).data = ['\x1b', '[', '0', 'm'] from rfl,
      List.append_assoc, List.cons_append, List.nil_append]
  rw [hdata, stripAux_esc, stripAux_in '[' (by decide),
    stripAux_skip st.sgr.data ((noM_iff st.sgr).1 hsg.2), stripAux_m,
    stripAux_plain t.data ((escFree_iff t).1 ht), stripAux_esc,
    stripAux_in '[' (by decide), stripAux_in '0' (by decide), stripAux_m]

/-- Stripping the styled render of good fragments gives the plain render. -/
theorem strip_renderFrags (fs : List Frag) (h : ∀ f ∈ fs, f.good = true) :
    stripEsc (renderFrags true fs) = renderFrags false fs := by
  have main : ∀ fs : List Frag, (∀ f ∈ fs, f.good = true) →
      stripAux false (renderFrags true fs).data = (renderFrags false fs).data := by
    intro fs hfs
    induction fs with
    | nil => rfl
    | cons f fs ih =>
      have hf : f.good = true := hfs f (by simp)
      have hrest : ∀ g ∈ fs, g.good = true := fun g hg => hfs g (by simp [hg])
      simp only [renderFrags, String.data_append]
      cases f with
      | plain s =>
        have hs : escFree s = true := hf
        rw [show Frag.render true (Frag.plain s) = s from rfl,
          show Frag.render false (Frag.plain s) = s from rfl,
          stripAux_plain s.data ((escFree_iff s).1 hs), ih hrest]
      | styled st s =>
        have hgood : escFree s = true ∧ goodStyle st = true := by
          simpa [Frag.good, Bool.and_eq_true] using hf
        rw [show Frag.render true (Frag.styled st s) = st.pre ++ s ++ st.suf from rfl,
          show Frag.render false (Frag.styled st s) = s from rfl,
          strip_styled st hgood.2 s hgood.1, ih hrest]
  have hm := main fs h
  unfold stripEsc
  exact congrArg String.mk hm

/-- The plain render of good fragments is escape free. -/
theorem escFree_renderFrags (fs : List Frag) (h : ∀ f ∈ fs, f.good = true) :
    escFree (renderFrags false fs) = true := by
  induction fs with
  | nil => rfl
  | cons f fs ih =>
    have hf : f.good = true := h f (by simp)
    have hrest : ∀ g ∈ fs, g.good = true := fun g hg => h g (by simp [hg])
    have hrender : escFree (f.render false) = true := by
      cases f with
      | plain s => exact hf
      | styled st s =>
        have : escFree s = true ∧ goodStyle st = true := by
          simpa [Frag.good, Bool.and_eq_true] using hf
        exact this.1
    simp only [renderFrags, escFree_append, Bool.and_eq_true]
    exact ⟨hrender, ih hrest⟩

/-! ### The ANSI flag does not influence what is written, only its rendering -/

/-- A write ignores the ANSI flag. -/
theorem write_ansi (w : Writer) (b : Bool) (f : Frag) :
    (w.withAnsi b).write f = ((w.write f).1.withAnsi b, (w.write f).2) := by
  rcases w with ⟨a, budget, frags⟩
  rcases budget with _ | (_ | k) <;> rfl

/-- A styled write ignores the ANSI flag. -/
theorem write_style_ansi (w : Writer) (b : Bool) (st : Style) (t : String) :
    (w.withAnsi b).write_style st t
      = ((w.write_style st t).1.withAnsi b, (w.write_style st t).2) :=
  write_ansi w b (Frag.styled st t)

/-- record_debug ignores the ANSI flag. -/
theorem record_debug_ansi (v : FieldVisitor) (b : Bool) (n d : String) :
    (v.withAnsi b).record_debug n d = (v.record_debug n d).withAnsi b := by
  rcases v with ⟨⟨a, budget, frags⟩, r, last⟩
  rcases budget with _ | (_ | k) <;>
    simp only [FieldVisitor.record_debug, FieldVisitor.withAnsi, Writer.withAnsi,
      Writer.write, Writer.write_style, FieldVisitor.pad_for_message,
      FieldVisitor.pad_for_other, FmtResult.is_err] <;>
    split_ifs <;> rfl

/-- record_str ignores the ANSI flag. -/
theorem record_str_ansi (v : FieldVisitor) (b : Bool) (n s : String) :
    (v.withAnsi b).record_str n s = (v.record_str n s).withAnsi b := by
  by_cases hn : n = "message" <;>
    simp [FieldVisitor.record_str, hn, record_debug_ansi]

/-- record_error ignores the ANSI flag. -/
theorem record_error_ansi (v : FieldVisitor) (b : Bool) (n : String) (e : ErrValue) :
    (v.withAnsi b).record_error n e = (v.record_error n e).withAnsi b := by
  rcases v with ⟨⟨a, budget, frags⟩, r, last⟩
  rcases budget with _ | (_ | k) <;>
    simp only [FieldVisitor.record_error, FieldVisitor.withAnsi, Writer.withAnsi,
      Writer.write, Writer.write_style, FieldVisitor.pad_for_other, FmtResult.is_err] <;>
    split_ifs <;> rfl

/-- A visit dispatch ignores the ANSI flag. -/
theorem visit_ansi (v : FieldVisitor) (b : Bool) (c : VisitCall) :
    (v.withAnsi b).visit c = (v.visit c).withAnsi b := by
  cases c with
  | vdebug n d => exact record_debug_ansi v b n d
  | vstr n s => exact record_str_ansi v b n s
  | verror n e => exact record_error_ansi v b n e

/-- The visit fold ignores the ANSI flag. -/
theorem foldVisits_ansi (calls : List VisitCall) : ∀ (v : FieldVisitor) (b : Bool),
    calls.foldl FieldVisitor.visit (v.withAnsi b)
      = (calls.foldl FieldVisitor.visit v).withAnsi b := by
  induction calls with
  | nil => intro v b; rfl
  | cons c rest ih =>
    intro v b
    simp only [List.foldl_cons, visit_ansi]
    exact ih (v.visit c) b

/-- format_fields ignores the ANSI flag. -/
theorem format_fields_ansi (w : Writer) (b : Bool) (calls : List VisitCall) :
    format_fields (w.withAnsi b) calls
      = ((format_fields w calls).1.withAnsi b, (format_fields w calls).2) := by
  have hnew : FieldVisitor.new (w.withAnsi b) = (FieldVisitor.new w).withAnsi b := rfl
  simp only [format_fields, hnew, foldVisits_ansi]
  rfl

/-- The span loop ignores the ANSI flag. -/
theorem renderSpans_ansi (scope : List SpanData) : ∀ (w : Writer) (b : Bool),
    renderSpans (w.withAnsi b) scope
      = ((renderSpans w scope).1.withAnsi b, (renderSpans w scope).2) := by
  induction scope with
  | nil => intro w b; rfl
  | cons s rest ih =>
    intro w b
    rcases s with ⟨n, f⟩
    cases f with
    | none =>
      simp only [renderSpans]
      rcases h1 : w.write_style Style.cyanDimmed n with ⟨w1, r1⟩
      rw [write_style_ansi, h1]
      cases r1 with
      | err => simp [fthen]
      | ok =>
        rw [fthen_ok, fthen_ok, fthen_ok, fthen_ok]
        exact ih w1 b
    | some f =>
      simp only [renderSpans]
      rcases h1 : w.write_style Style.cyanDimmed n with ⟨w1, r1⟩
      rw [write_style_ansi, h1]
      cases r1 with
      | err => simp [fthen]
      | ok =>
        rw [fthen_ok, fthen_ok]
        by_cases hf : f.isEmpty = true
        · rw [if_pos hf, if_pos hf, fthen_ok, fthen_ok]
          exact ih w1 b
        · rw [if_neg hf, if_neg hf]
          rcases h2 : w1.write (Frag.plain (f ++ ":")) with ⟨w2, r2⟩
          rw [write_ansi, h2]
          cases r2 with
          | err => simp [fthen]
          | ok =>
            rw [fthen_ok, fthen_ok]
            exact ih w2 b

/-- The scope display ignores the ANSI flag. -/
theorem renderScope_ansi (w : Writer) (b : Bool) (scope : List SpanData) :
    renderScope (w.withAnsi b) scope
      = ((renderScope w scope).1.withAnsi b, (renderScope w scope).2) := by
  simp only [renderScope]
  rcases h1 : renderSpans w scope with ⟨w1, r1⟩
  rw [renderSpans_ansi, h1]
  cases r1 with
  | err => simp [fthen]
  | ok =>
    rw [fthen_ok, fthen_ok]
    by_cases hs : scope.isEmpty = true
    · rw [if_pos hs, if_pos hs]
    · rw [if_neg hs, if_neg hs]
      exact write_ansi w1 b (Frag.plain " ")

/-- format_event ignores the ANSI flag: a styled and an unstyled run over the
same sink record the same write calls with the same outcome. -/
theorem format_event_ansi (fmtr : EventFormatter) (tsText : String) (w : Writer)
    (b : Bool) (event : EventData) (scope : List SpanData) :
    fmtr.format_event tsText (w.withAnsi b) event scope
      = ((fmtr.format_event tsText w event scope).1.withAnsi b,
          (fmtr.format_event tsText w event scope).2) := by
  simp only [EventFormatter.format_event]
  rcases h1 : (if fmtr.time_format.is_none then (w, FmtResult.ok)
      else w.write_style Style.dimmed (tsText ++ " ")) with ⟨w1, r1⟩
  have h1b : (if fmtr.time_format.is_none then (w.withAnsi b, FmtResult.ok)
      else (w.withAnsi b).write_style Style.dimmed (tsText ++ " "))
      = (w1.withAnsi b, r1) := by
    by_cases ht : fmtr.time_format.is_none = true
    · rw [if_pos ht]
      rw [if_pos ht] at h1
      rw [show w1 = w from congrArg Prod.fst h1.symm,
        show r1 = FmtResult.ok from congrArg Prod.snd h1.symm]
    · rw [if_neg ht]
      rw [if_neg ht] at h1
      rw [write_style_ansi, h1]
  rw [h1b]
  cases r1 with
  | err => simp [fthen]
  | ok =>
    rw [fthen_ok, fthen_ok]
    rcases h2 : w1.write_style event.level.style (event.level.padded ++ " ") with ⟨w2, r2⟩
    rw [write_style_ansi, h2]
    cases r2 with
    | err => simp [fthen]
    | ok =>
      rw [fthen_ok, fthen_ok]
      rcases h3 : (if fmtr.display_scope then renderScope w2 scope
          else (w2, FmtResult.ok)) with ⟨w3, r3⟩
      have h3b : (if fmtr.display_scope then renderScope (w2.withAnsi b) scope
          else (w2.withAnsi b, FmtResult.ok)) = (w3.withAnsi b, r3) := by
        by_cases hd : fmtr.display_scope = true
        · rw [if_pos hd]
          rw [if_pos hd] at h3
          rw [renderScope_ansi, h3]
        · rw [if_neg hd]
          rw [if_neg hd] at h3
          rw [show w3 = w2 from congrArg Prod.fst h3.symm,
            show r3 = FmtResult.ok from congrArg Prod.snd h3.symm]
      rw [h3b]
      cases r3 with
      | err => simp [fthen]
      | ok =>
        rw [fthen_ok, fthen_ok]
        rcases h4 : (if fmtr.display_target then
            fthen (w3.write_style Style.blueDimmed event.target) fun w =>
              w.write (Frag.plain ": ")
          else (w3, FmtResult.ok)) with ⟨w4, r4⟩
        have h4b : (if fmtr.display_target then
            fthen ((w3.withAnsi b).write_style Style.blueDimmed event.target) fun w =>
              w.write (Frag.plain ": ")
          else (w3.withAnsi b, FmtResult.ok)) = (w4.withAnsi b, r4) := by
          by_cases hd : fmtr.display_target = true
          · rw [if_pos hd]
            rw [if_pos hd] at h4
            rcases h5 : w3.write_style Style.blueDimmed event.target with ⟨w5, r5⟩
            rw [write_style_ansi, h5]
            rw [h5] at h4
            cases r5 with
            | err =>
              rw [fthen_err] at h4
              rw [fthen_err, show w4 = w5 from congrArg Prod.fst h4.symm,
                show r4 = FmtResult.err from congrArg Prod.snd h4.symm]
            | ok =>
              rw [fthen_ok] at h4
              rw [fthen_ok, write_ansi, h4]
          · rw [if_neg hd]
            rw [if_neg hd] at h4
            rw [show w4 = w3 from congrArg Prod.fst h4.symm,
              show r4 = FmtResult.ok from congrArg Prod.snd h4.symm]
        rw [h4b]
        cases r4 with
        | err => simp [fthen]
        | ok =>
          rw [fthen_ok, fthen_ok]
          rcases h6 : format_fields w4 event.fields with ⟨w6, r6⟩
          rw [format_fields_ansi, h6]
          cases r6 with
          | err => simp [fthen]
          | ok =>
            rw [fthen_ok, fthen_ok]
            exact write_ansi w6 b (Frag.plain "\n")

/-! ### Escape-free inputs yield good fragments -/

/-- A write preserves goodness of the recorded fragments. -/
theorem goodW_write (w : Writer) (f : Frag) (hw : GoodW w) (hf : f.good = true) :
    GoodW (w.write f).1 := by
  rcases w with ⟨a, budget, frags⟩
  have base : ∀ bud : Option Nat, GoodW ⟨a, bud, frags ++ [f]⟩ := by
    intro bud g hg
    rcases List.mem_append.1 hg with hg | hg
    · exact hw g hg
    · rw [List.mem_singleton.1 hg]
      exact hf
  rcases budget with _ | (_ | k)
  · exact base _
  · exact hw
  · exact base _

/-- A styled write with escape-free text and a good style preserves
goodness. -/
theorem goodW_write_style (w : Writer) (st : Style) (t : String) (hw : GoodW w)
    (ht : escFree t = true) (hst : goodStyle st = true) :
    GoodW (w.write_style st t).1 :=
  goodW_write w _ hw (by simp [Frag.good, ht, hst])

/-- The message pad is escape free. -/
theorem escFree_pad_message (v : FieldVisitor) : escFree v.pad_for_message = true := by
  rcases v with ⟨w, r, last⟩
  cases last <;> rfl

/-- The non-message pad is escape free. -/
theorem escFree_pad_other (v : FieldVisitor) : escFree v.pad_for_other = true := by
  rcases v with ⟨w, r, last⟩
  cases last <;> rfl

/-- Debug escaping of a non-escape character is escape free. -/
theorem escFree_escapeDebugChar (c : Char) (hc : c ≠ '\x1b') :
    escFree (escapeDebugChar c) = true := by
  unfold escapeDebugChar
  split_ifs <;> first
    | rfl
    | (simp only [escFree, String.singleton, Bool.not_eq_true']
       simp [eq_comm, hc])

/-- Debug escaping of an escape-free character list is escape free. -/
theorem escFree_concat_map (cs : List Char) (h : ∀ c ∈ cs, c ≠ '\x1b') :
    escFree (concatStrs (cs.map escapeDebugChar)) = true := by
  induction cs with
  | nil => rfl
  | cons c cs ih =>
    simp only [List.map_cons, concatStrs, escFree_append, Bool.and_eq_true]
    exact ⟨escFree_escapeDebugChar c (h c (by simp)), ih fun d hd => h d (by simp [hd])⟩

/-- The Debug rendering of an escape-free str is escape free. -/
theorem escFree_strDebug (s : String) (h : escFree s = true) :
    escFree (strDebug s) = true := by
  rw [strDebug, escFree_append, escFree_append]
  simp [escFree_concat_map s.data ((escFree_iff s).1 h),
    show escFree "\"" = true from rfl]

/-- record_debug with escape-free name and value preserves goodness. -/
theorem goodW_record_debug (v : FieldVisitor) (n d : String) (hv : GoodW v.writer)
    (hn : escFree n = true) (hd : escFree d = true) :
    GoodW (v.record_debug n d).writer := by
  unfold FieldVisitor.record_debug
  by_cases h1 : v.result.is_err = true
  · rw [if_pos h1]
    exact hv
  · rw [if_neg h1]
    by_cases h2 : strStartsWith n "log." = true
    · rw [if_pos h2]
      exact hv
    · rw [if_neg h2]
      by_cases h3 : n = "message"
      · rw [if_pos h3]
        exact goodW_write _ _ hv
          (by simp [Frag.good, escFree_append, escFree_pad_message, hd])
      · rw [if_neg h3]
        exact goodW_write_style _ _ _ hv
          (by simp [escFree_append, escFree_pad_other, hn, hd,
            show escFree "[" = true from rfl, show escFree "=" = true from rfl,
            show escFree "]" = true from rfl]) rfl

/-- record_str with escape-free name and value preserves goodness. -/
theorem goodW_record_str (v : FieldVisitor) (n s : String) (hv : GoodW v.writer)
    (hn : escFree n = true) (hs : escFree s = true) :
    GoodW (v.record_str n s).writer := by
  by_cases hm : n = "message"
  · rw [FieldVisitor.record_str, if_pos hm]
    exact goodW_record_debug v n s hv hn hs
  · rw [FieldVisitor.record_str, if_neg hm]
    exact goodW_record_debug v n (strDebug s) hv hn (escFree_strDebug s hs)

/-- record_error with an escape-free name and display message preserves
goodness. -/
theorem goodW_record_error (v : FieldVisitor) (n : String) (e : ErrValue)
    (hv : GoodW v.writer) (hn : escFree n = true) (he : escFree e.display = true) :
    GoodW (v.record_error n e).writer := by
  unfold FieldVisitor.record_error
  by_cases h1 : v.result.is_err = true
  · rw [if_pos h1]
    exact hv
  · rw [if_neg h1]
    by_cases h2 : strStartsWith n "log." = true
    · rw [if_pos h2]
      exact hv
    · rw [if_neg h2]
      exact goodW_write_style _ _ _ hv
        (by simp [escFree_append, escFree_pad_other, hn, he,
          show escFree "[" = true from rfl, show escFree "=" = true from rfl,
          show escFree "]" = true from rfl]) rfl

/-- A visit with escape-free inputs preserves goodness. -/
theorem goodW_visit (v : FieldVisitor) (c : VisitCall) (hv : GoodW v.writer)
    (hc : c.escInputs = true) : GoodW (v.visit c).writer := by
  cases c with
  | vdebug n d =>
    obtain ⟨hn, hd⟩ : escFree n = true ∧ escFree d = true := by
      simpa [VisitCall.escInputs, Bool.and_eq_true] using hc
    exact goodW_record_debug v n d hv hn hd
  | vstr n s =>
    obtain ⟨hn, hs⟩ : escFree n = true ∧ escFree s = true := by
      simpa [VisitCall.escInputs, Bool.and_eq_true] using hc
    exact goodW_record_str v n s hv hn hs
  | verror n e =>
    obtain ⟨hn, he⟩ : escFree n = true ∧ escFree e.display = true := by
      simpa [VisitCall.escInputs, Bool.and_eq_true] using hc
    exact goodW_record_error v n e hv hn he

/-- The visit fold with escape-free inputs preserves goodness. -/
theorem goodW_foldVisits (calls : List VisitCall) : ∀ v : FieldVisitor,
    GoodW v.writer → (∀ c ∈ calls, c.escInputs = true) →
    GoodW ((calls.foldl FieldVisitor.visit v).writer) := by
  induction calls with
  | nil => intro v hv _; exact hv
  | cons c rest ih =>
    intro v hv hc
    simp only [List.foldl_cons]
    exact ih (v.visit c) (goodW_visit v c hv (hc c (by simp)))
      fun d hd => hc d (by simp [hd])

/-- format_fields with escape-free inputs preserves goodness. -/
theorem goodW_format_fields (w : Writer) (calls : List VisitCall) (hw : GoodW w)
    (hc : ∀ c ∈ calls, c.escInputs = true) : GoodW (format_fields w calls).1 :=
  goodW_foldVisits calls (FieldVisitor.new w) hw hc

/-- The span loop with escape-free inputs preserves goodness. -/
theorem goodW_renderSpans (scope : List SpanData) : ∀ w : Writer,
    GoodW w → (∀ s ∈ scope, s.escInputs = true) →
    GoodW (renderSpans w scope).1 := by
  induction scope with
  | nil =>
    intro w hw _
    exact hw
  | cons s rest ih =>
    intro w hw hs
    rcases s with ⟨n, f⟩
    have hsn := hs ⟨n, f⟩ (by simp)
    cases f with
    | none =>
      have hn : escFree n = true := by
        simpa [SpanData.escInputs] using hsn
      simp only [renderSpans]
      rcases h1 : w.write_style Style.cyanDimmed n with ⟨w1, r1⟩
      have hg1 : GoodW w1 := by
        have := goodW_write_style w Style.cyanDimmed n hw hn rfl
        rw [h1] at this
        exact this
      cases r1 with
      | err =>
        rw [fthen_err]
        exact hg1
      | ok =>
        rw [fthen_ok, fthen_ok]
        exact ih w1 hg1 fun d hd => hs d (by simp [hd])
    | some f =>
      have hnf : escFree n = true ∧ escFree f = true := by
        simpa [SpanData.escInputs, Bool.and_eq_true] using hsn
      simp only [renderSpans]
      rcases h1 : w.write_style Style.cyanDimmed n with ⟨w1, r1⟩
      have hg1 : GoodW w1 := by
        have := goodW_write_style w Style.cyanDimmed n hw hnf.1 rfl
        rw [h1] at this
        exact this
      cases r1 with
      | err =>
        rw [fthen_err]
        exact hg1
      | ok =>
        rw [fthen_ok]
        by_cases hfe : f.isEmpty = true
        · rw [if_pos hfe, fthen_ok]
          exact ih w1 hg1 fun d hd => hs d (by simp [hd])
        · rw [if_neg hfe]
          rcases h2 : w1.write (Frag.plain (f ++ ":")) with ⟨w2, r2⟩
          have hg2 : GoodW w2 := by
            have := goodW_write w1 (Frag.plain (f ++ ":")) hg1
              (by simp [Frag.good, escFree_append, hnf.2,
                show escFree ":" = true from rfl])
            rw [h2] at this
            exact this
          cases r2 with
          | err =>
            rw [fthen_err]
            exact hg2
          | ok =>
            rw [fthen_ok]
            exact ih w2 hg2 fun d hd => hs d (by simp [hd])

/-- The scope display with escape-free inputs preserves goodness. -/
theorem goodW_renderScope (w : Writer) (scope : List SpanData) (hw : GoodW w)
    (hs : ∀ s ∈ scope, s.escInputs = true) : GoodW (renderScope w scope).1 := by
  simp only [renderScope]
  rcases h1 : renderSpans w scope with ⟨w1, r1⟩
  have hg1 : GoodW w1 := by
    have := goodW_renderSpans scope w hw hs
    rw [h1] at this
    exact this
  cases r1 with
  | err =>
    rw [fthen_err]
    exact hg1
  | ok =>
    rw [fthen_ok]
    by_cases he : scope.isEmpty = true
    · rw [if_pos he]
      exact hg1
    · rw [if_neg he]
      exact goodW_write w1 (Frag.plain " ") hg1 rfl

/-- The per-level style is a good style and the padded level text is escape
free. -/
theorem level_good (l : Level) :
    goodStyle l.style = true ∧ escFree (l.padded ++ " ") = true := by
  cases l <;> exact ⟨rfl, rfl⟩

/-- format_event with escape-free inputs records only good fragments. -/
theorem goodW_format_event (fmtr : EventFormatter) (tsText : String) (w : Writer)
    (event : EventData) (scope : List SpanData) (hw : GoodW w)
    (hts : escFree tsText = true) (hev : event.escInputs = true)
    (hsc : ∀ s ∈ scope, s.escInputs = true) :
    GoodW (fmtr.format_event tsText w event scope).1 := by
  obtain ⟨htg, hfl⟩ : escFree event.target = true ∧
      ∀ c ∈ event.fields, c.escInputs = true := by
    have := hev
    simp only [EventData.escInputs, Bool.and_eq_true, List.all_eq_true] at this
    exact this
  simp only [EventFormatter.format_event]
  rcases h1 : (if fmtr.time_format.is_none then (w, FmtResult.ok)
      else w.write_style Style.dimmed (tsText ++ " ")) with ⟨w1, r1⟩
  have hg1 : GoodW w1 := by
    by_cases ht : fmtr.time_format.is_none = true
    · rw [if_pos ht] at h1
      rw [show w1 = w from congrArg Prod.fst h1.symm]
      exact hw
    · rw [if_neg ht] at h1
      have := goodW_write_style w Style.dimmed (tsText ++ " ") hw
        (by simp [escFree_append, hts, show escFree " " = true from rfl]) rfl
      rw [h1] at this
      exact this
  cases r1 with
  | err =>
    rw [fthen_err]
    exact hg1
  | ok =>
    rw [fthen_ok]
    rcases h2 : w1.write_style event.level.style (event.level.padded ++ " ") with ⟨w2, r2⟩
    have hg2 : GoodW w2 := by
      have := goodW_write_style w1 event.level.style (event.level.padded ++ " ") hg1
        (level_good event.level).2 (level_good event.level).1
      rw [h2] at this
      exact this
    cases r2 with
    | err =>
      rw [fthen_err]
      exact hg2
    | ok =>
      rw [fthen_ok]
      rcases h3 : (if fmtr.display_scope then renderScope w2 scope
          else (w2, FmtResult.ok)) with ⟨w3, r3⟩
      have hg3 : GoodW w3 := by
        by_cases hd : fmtr.display_scope = true
        · rw [if_pos hd] at h3
          have := goodW_renderScope w2 scope hg2 hsc
          rw [h3] at this
          exact this
        · rw [if_neg hd] at h3
          rw [show w3 = w2 from congrArg Prod.fst h3.symm]
          exact hg2
      cases r3 with
      | err =>
        rw [fthen_err]
        exact hg3
      | ok =>
        rw [fthen_ok]
        rcases h4 : (if fmtr.display_target then
            fthen (w3.write_style Style.blueDimmed event.target) fun w =>
              w.write (Frag.plain ": ")
          else (w3, FmtResult.ok)) with ⟨w4, r4⟩
        have hg4 : GoodW w4 := by
          by_cases hd : fmtr.display_target = true
          · rw [if_pos hd] at h4
            rcases h5 : w3.write_style Style.blueDimmed event.target with ⟨w5, r5⟩
            have hg5 : GoodW w5 := by
              have := goodW_write_style w3 Style.blueDimmed event.target hg3 htg rfl
              rw [h5] at this
              exact this
            rw [h5] at h4
            cases r5 with
            | err =>
              rw [fthen_err] at h4
              rw [show w4 = w5 from congrArg Prod.fst h4.symm]
              exact hg5
            | ok =>
              rw [fthen_ok] at h4
              have := goodW_write w5 (Frag.plain ": ") hg5 rfl
              rw [h4] at this
              exact this
          · rw [if_neg hd] at h4
            rw [show w4 = w3 from congrArg Prod.fst h4.symm]
            exact hg3
        cases r4 with
        | err =>
          rw [fthen_err]
          exact hg4
        | ok =>
          rw [fthen_ok]
          rcases h6 : format_fields w4 event.fields with ⟨w6, r6⟩
          have hg6 : GoodW w6 := by
            have := goodW_format_fields w4 event.fields hg4 hfl
            rw [h6] at this
            exact this
          cases r6 with
          | err =>
            rw [fthen_err]
            exact hg6
          | ok =>
            rw [fthen_ok]
            exact goodW_write w6 (Frag.plain "\n") hg6 rfl

/-- C5: when the sink reports that ANSI styling is not permitted, the rendered
line contains no ANSI escape byte anywhere (provided the host-supplied texts
carry none), and the styled and unstyled renders write the same text apart
from the escape prefixes and suffixes: stripping the escape sequences from the
styled render gives exactly the unstyled render. -/
theorem C5_ansi_escapes (fmtr : EventFormatter) (tsText : String) (event : EventData)
    (scope : List SpanData) (h1 : escFree tsText = true) (h2 : event.escInputs = true)
    (h3 : ∀ s ∈ scope, s.escInputs = true) :
    escFree (fmtr.format_event tsText ⟨false, Option.none, []⟩ event scope).1.out = true ∧
    stripEsc (fmtr.format_event tsText ⟨true, Option.none, []⟩ event scope).1.out
      = (fmtr.format_event tsText ⟨false, Option.none, []⟩ event scope).1.out := by
  have hgood : GoodW (fmtr.format_event tsText ⟨false, Option.none, []⟩ event scope).1 :=
    goodW_format_event fmtr tsText ⟨false, Option.none, []⟩ event scope
      (by intro f hf; exact absurd hf (List.not_mem_nil f)) h1 h2 h3
  have hansi0 : fmtr.format_event tsText ⟨false, Option.none, []⟩ event scope
      = ((fmtr.format_event tsText ⟨false, Option.none, []⟩ event scope).1.withAnsi false,
          (fmtr.format_event tsText ⟨false, Option.none, []⟩ event scope).2) := by
    have h := format_event_ansi fmtr tsText ⟨false, Option.none, []⟩ false event scope
    rw [show ((⟨false, Option.none, []⟩ : Writer).withAnsi false)
        = (⟨false, Option.none, []⟩ : Writer) from rfl] at h
    exact h
  have hansiF : (fmtr.format_event tsText ⟨false, Option.none, []⟩ event scope).1.ansi
      = false := by
    have := congrArg (fun p : Writer × FmtResult => p.1.ansi) hansi0
    simpa [Writer.withAnsi] using this
  have htrue : fmtr.format_event tsText ⟨true, Option.none, []⟩ event scope
      = ((fmtr.format_event tsText ⟨false, Option.none, []⟩ event scope).1.withAnsi true,
          (fmtr.format_event tsText ⟨false, Option.none, []⟩ event scope).2) := by
    have h := format_event_ansi fmtr tsText ⟨false, Option.none, []⟩ true event scope
    rw [show ((⟨false, Option.none, []⟩ : Writer).withAnsi true)
        = (⟨true, Option.none, []⟩ : Writer) from rfl] at h
    exact h
  have hout : (fmtr.format_event tsText ⟨false, Option.none, []⟩ event scope).1.out
      = renderFrags false
          (fmtr.format_event tsText ⟨false, Option.none, []⟩ event scope).1.frags := by
    rw [Writer.out, hansiF]
  constructor
  · rw [hout]
    exact escFree_renderFrags _ hgood
  · rw [htrue, hout]
    have houtT : ((fmtr.format_event tsText ⟨false, Option.none, []⟩ event scope).1.withAnsi
        true).out
        = renderFrags true
            (fmtr.format_event tsText ⟨false, Option.none, []⟩ event scope).1.frags := by
      simp [Writer.out, Writer.withAnsi]
    rw [houtT]
    exact strip_renderFrags _ hgood

/-- C5 witness: a concrete event with a message, a plain field and an error
field, under a one-span scope, rendered without and with ANSI. -/
theorem C5_witness :
    (escFree "[TS]" = true ∧
      (EventData.escInputs ⟨Level.info, "app",
        [VisitCall.vdebug "message" "starting", VisitCall.vstr "x" "y",
          VisitCall.verror "cause" ⟨"io", "IO"⟩]⟩ = true) ∧
      (∀ s ∈ ([⟨"setup", some "[k=1]"⟩] : List SpanData), s.escInputs = true)) ∧
    (escFree (EventFormatter.new.format_event "[TS]" ⟨false, Option.none, []⟩
        ⟨Level.info, "app",
          [VisitCall.vdebug "message" "starting", VisitCall.vstr "x" "y",
            VisitCall.verror "cause" ⟨"io", "IO"⟩]⟩
        [⟨"setup", some "[k=1]"⟩]).1.out = true ∧
      stripEsc (EventFormatter.new.format_event "[TS]" ⟨true, Option.none, []⟩
          ⟨Level.info, "app",
            [VisitCall.vdebug "message" "starting", VisitCall.vstr "x" "y",
              VisitCall.verror "cause" ⟨"io", "IO"⟩]⟩
          [⟨"setup", some "[k=1]"⟩]).1.out
        = (EventFormatter.new.format_event "[TS]" ⟨false, Option.none, []⟩
            ⟨Level.info, "app",
              [VisitCall.vdebug "message" "starting", VisitCall.vstr "x" "y",
                VisitCall.verror "cause" ⟨"io", "IO"⟩]⟩
            [⟨"setup", some "[k=1]"⟩]).1.out) :=
  ⟨⟨by decide, by decide, by decide⟩,
    C5_ansi_escapes EventFormatter.new "[TS]"
      ⟨Level.info, "app",
        [VisitCall.vdebug "message" "starting", VisitCall.vstr "x" "y",
          VisitCall.verror "cause" ⟨"io", "IO"⟩]⟩
      [⟨"setup", some "[k=1]"⟩] (by decide) (by decide) (by decide)⟩

end Serif
